import Mathlib

/-!
Shallow embedding of `orangecontrib/text/nyt.py` (NYT article API client):
date-string encoding, JSON record flattening (`_parse_record_json`), corpus
generation (`_generate_corpus`), endpoint/cache-key assembly
(`NYT._set_endpoint_url`), the cached page fetcher (`NYT._execute_query`) and
the paging driver (`NYT.run_query`).

Python values appearing in the code are modelled as follows: JSON data is the
inductive `J` (strings, arrays, objects, and `null`, which is also Python's
`None`); exceptions are the `PyErr` error monad (`Except`); `warnings.warn`
calls are collected in a list of `Warn` values; the network and `json.loads`
are parameters (`Env`), and the `shelve` cache is an explicit association
list threaded through the computation.  Machine-level details (HTTP, the
actual JSON grammar, percent-encoding inside `urllib.parse.urlencode`) are
abstracted, but every branch and every evaluation order of the Python source
is kept.
-/

/-! ### Decimal rendering and dates

`_date_to_str` (nyt.py lines 56-65) takes `date.isoformat()`, which is
exactly the string `YYYY-MM-DD` (zero-padded, no `T` component and no
surrounding whitespace), strips it, splits on `T` (identity here), splits on
`-` and concatenates the three parts.  The net effect, which we embed
directly, is the concatenation of the zero-padded decimal renderings of
year (width 4), month (width 2) and day (width 2). -/

/-- Fuel-indexed big-endian decimal digits of a natural number
(the rendering used by Python's `%d`/`str`). -/
def decDigitsAux : Nat → Nat → List Char
  | 0, _ => []
  | fuel + 1, n =>
    if n < 10 then [Nat.digitChar n]
    else decDigitsAux fuel (n / 10) ++ [Nat.digitChar (n % 10)]

/-- Big-endian decimal digits of `n`. -/
def decDigits (n : Nat) : List Char :=
  decDigitsAux (n + 1) n

/-- Zero-pad the decimal rendering of `n` to width `w` (Python `%0wd`,
as inside `date.isoformat()`). -/
def padDec (w n : Nat) : List Char :=
  List.replicate (w - (decDigits n).length) '0' ++ decDigits n

/-- A calendar date as used by `datetime.date`. -/
structure PyDate where
  year : Nat
  month : Nat
  day : Nat
deriving DecidableEq, Repr

/-- Embedding of `_date_to_str` (nyt.py lines 56-65).  On
`date.isoformat()` output (`YYYY-MM-DD`, no `T`, no whitespace) the strip /
split-on-`T` / split-on-`-` / concatenate pipeline returns exactly the
dash-free zero-padded date string. -/
def _date_to_str (d : PyDate) : String :=
  String.mk (padDec 4 d.year ++ padDec 2 d.month ++ padDec 2 d.day)

/-- Decimal value of a digit string (big-endian), used to prove the date
encoding injective. -/
def decValue (cs : List Char) : Nat :=
  cs.foldl (fun a c => a * 10 + (c.toNat - 48)) 0

/-! ### JSON values and Python operations

JSON payloads decoded by `json.loads` are modelled by `J`.  Python's `None`
is exactly JSON `null`, so `J.null` doubles as the absent-value marker that
`_parse_record_json` writes into rows.  (Numeric and boolean JSON leaves play
no role in any claim and are omitted from the model.) -/

inductive J where
  | null
  | str (s : String)
  | arr (xs : List J)
  | obj (fields : List (String × J))

/-- Python exceptions that the embedded code can raise. -/
inductive PyErr where
  | keyError (k : String)
  | typeError
  | valueError
  | attributeError
  | urlError
deriving DecidableEq, Repr

/-- Python truthiness of a value (`if val:`): `None`, `""`, `[]` and `{}`
are falsy. -/
def J.truthy : J → Bool
  | .null => false
  | .str s => s != ""
  | .arr xs => !xs.isEmpty
  | .obj kvs => !kvs.isEmpty

/-- Python `v == s` for a string literal `s`: true only on an equal string
(values of other types compare unequal without raising). -/
def jEqStr (v : J) (s : String) : Bool :=
  match v with
  | .str t => t == s
  | _ => false

/-- Lookup of a key in an association list (Python dict, insertion order). -/
def alistFind (kvs : List (String × J)) (k : String) : Option J :=
  (kvs.find? (fun kv => kv.1 == k)).map Prod.snd

/-- Python subscript `x[k]` for a string key: `KeyError` on a dict without
the key, `TypeError` on values that are not dicts. -/
def J.getItem : J → String → Except PyErr J
  | .obj kvs, k =>
    match alistFind kvs k with
    | some v => .ok v
    | none => .error (.keyError k)
  | _, _ => .error .typeError

/-- Prefix test on character lists, a helper for Python's substring `in`. -/
def charsPrefixOf : List Char → List Char → Bool
  | [], _ => true
  | _ :: _, [] => false
  | a :: as, b :: bs => a == b && charsPrefixOf as bs

/-- Infix (substring) test on character lists. -/
def charsInfixOf (xs : List Char) : List Char → Bool
  | [] => charsPrefixOf xs []
  | b :: bs => charsPrefixOf xs (b :: bs) || charsInfixOf xs bs

/-- Python membership `k in x` for a string `k`: key test on dicts,
substring test on strings, element equality test on lists, `TypeError`
otherwise. -/
def pyContains (x : J) (k : String) : Except PyErr Bool :=
  match x with
  | .obj kvs => .ok (kvs.any (fun kv => kv.1 == k))
  | .str s => .ok (charsInfixOf k.data s.data)
  | .arr xs => .ok (xs.any (fun v => jEqStr v k))
  | .null => .error .typeError

/-- Python `x.get(k, dflt)`: only dicts have `.get`; other values raise
`AttributeError`. -/
def J.get : J → String → J → Except PyErr J
  | .obj kvs, k, dflt => .ok ((alistFind kvs k).getD dflt)
  | _, _, _ => .error .attributeError

/-- Python iteration `for v in x`: lists yield elements, strings yield
one-character strings, dicts yield their keys, `None` is not iterable. -/
def J.iterate : J → Except PyErr (List J)
  | .arr xs => .ok xs
  | .str s => .ok (s.data.map (fun c => J.str (String.mk [c])))
  | .obj kvs => .ok (kvs.map (fun kv => J.str kv.1))
  | .null => .error .typeError

/-- Python `str` requirement of `" ".join(...)`: joining a list with a
non-string element raises `TypeError`. -/
def J.expectStr : J → Except PyErr String
  | .str s => .ok s
  | _ => .error .typeError

/-! ### The record flattener `_parse_record_json` (nyt.py lines 18-53) -/

/-- Field flattening, the body of the `if field in doc:` branch
(nyt.py lines 33-41): dict values are space-joined after dropping falsy
ones, list elements contribute their `"value"` entries (falsy elements
dropped), any other value is kept when truthy and otherwise replaced by
the initial `""`. -/
def flattenField (v : J) : Except PyErr J :=
  match v with
  | .obj kvs => do
    let vals := (kvs.map Prod.snd).filter J.truthy
    let strs ← vals.mapM J.expectStr
    pure (J.str (" ".intercalate strs))
  | .arr xs => do
    let kws := xs.filter J.truthy
    let vals ← kws.mapM (fun kw => kw.getItem "value")
    let strs ← vals.mapM J.expectStr
    pure (J.str (" ".intercalate strs))
  | v => pure (if v.truthy then v else J.str "")

/-- The `glocations` extraction (nyt.py line 45):
`",".join([kw["value"] for kw in doc["keywords"] if kw["name"] == "glocations"])`,
with the list comprehension's left-to-right evaluation order kept so that
the first raising subscript wins. -/
def glocationString (doc : J) : Except PyErr J := do
  let kwsVal ← doc.getItem "keywords"
  let kws ← kwsVal.iterate
  let picked ← kws.foldlM (fun acc kw => do
    let name ← kw.getItem "name"
    if jEqStr name "glocations" then
      let v ← kw.getItem "value"
      pure (acc ++ [v])
    else
      pure acc) ([] : List J)
  let strs ← picked.mapM J.expectStr
  pure (J.str (",".intercalate strs))

/-- Normalisation `None if v is "" else v` (nyt.py line 50).  The code
relies on CPython interning the empty string, so the identity test behaves
as equality with `""`. -/
def normalizeCell (v : J) : J :=
  if jEqStr v "" then J.null else v

/-- The body of the `for field in includes_metadata:` loop of
`_parse_record_json` (nyt.py lines 31-41): a field absent from the record
contributes nothing to the row. -/
def parseFieldStep (doc : J) (acc : List J) (field : String) :
    Except PyErr (List J) := do
  let present ← pyContains doc field
  if present then
    let v ← doc.getItem field
    let fv ← flattenField v
    pure (acc ++ [fv])
  else
    pure acc

/-- One iteration of the `for doc in records:` loop of `_parse_record_json`
(nyt.py lines 29-51), producing the normalised metadata row and the class
value, in the source's evaluation order: configured fields (absent fields
contribute nothing), `pub_date`, the glocation string, `section_name`,
then empty-string normalisation of the whole row. -/
def parseDoc (doc : J) (includes_metadata : List String) :
    Except PyErr (List J × J) := do
  let metas₀ ← includes_metadata.foldlM (parseFieldStep doc) ([] : List J)
  let pub ← doc.get "pub_date" (J.str "")
  let gloc ← glocationString doc
  let cls ← doc.get "section_name" J.null
  let row := (metas₀ ++ [pub, gloc]).map normalizeCell
  pure (row, cls)

/-- Embedding of `_parse_record_json` (nyt.py lines 18-53).  The metadata
matrix starts with `len(includes_metadata) + 2` columns, and `np.vstack`
raises `ValueError` as soon as a row of any other length is stacked. -/
def _parse_record_json (records : List J) (includes_metadata : List String) :
    Except PyErr (List (List J) × List J) :=
  records.foldlM (fun st doc => do
    let (metadata, class_values) := st
    let (row, cls) ← parseDoc doc includes_metadata
    let class_values := class_values ++ [cls]
    if row.length = includes_metadata.length + 2 then
      pure (metadata ++ [row], class_values)
    else
      throw .valueError) (([], []) : List (List J) × List J)

/-! ### Corpus generation `_generate_corpus` (nyt.py lines 68-90) -/

/-- Python `d is None` (None is a singleton, so identity is equality). -/
def jIsNull : J → Bool
  | .null => true
  | _ => false

/-- Hashability check performed by `set(class_values)`: strings and `None`
are hashable, lists and dicts raise `TypeError`. -/
def hashableKey : J → Except PyErr (Option String)
  | .null => .ok none
  | .str s => .ok (some s)
  | _ => .error .typeError

/-- First-occurrence de-duplication.  Python's `list(set(...))` order is an
unspecified but (within one process) deterministic function of the elements;
we fix first-occurrence order as its model. -/
def dedupFirst (l : List (Option String)) : List (Option String) :=
  l.foldl (fun acc v => if acc.contains v then acc else acc ++ [v]) []

/-- The table produced for the Orange toolkit: document strings, the class
column as indices into the distinct class values, the metadata matrix and
the class variable's value list. -/
structure Corpus where
  documents : List String
  Y : List Nat
  metas : List (List J)
  domainValues : List (Option String)

/-- Embedding of `_generate_corpus` (nyt.py lines 68-90): flatten the
records, join each row's non-`None` cells into a document string, build the
class domain from the distinct class values and encode the class column. -/
def _generate_corpus (records : List J) (required_text_fields : List String) :
    Except PyErr Corpus := do
  let (metas, class_values) ← _parse_record_json records required_text_fields
  let documents ← metas.mapM (fun doc => do
    let strs ← (doc.filter (fun d => !(jIsNull d))).mapM J.expectStr
    pure ((" ".intercalate strs).trim))
  let keys ← class_values.mapM hashableKey
  let domainValues := dedupFirst keys
  let Y := keys.map (fun cv => domainValues.findIdx (fun v => v == cv))
  pure { documents := documents, Y := Y, metas := metas,
         domainValues := domainValues }

/-! ### Endpoint and cache-key assembly (nyt.py lines 93-116, 173-216, 259-266) -/

def NYT_TEXT_FIELDS : List String :=
  ["headline", "lead_paragraph", "snippet", "abstract", "keywords"]

def nytBaseUrl : String :=
  "http://api.nytimes.com/svc/search/v2/articlesearch.json"

/-- Embedding of `_encode_base_url` (nyt.py lines 259-266):
`urlencode([("q", query), ("fq", "The New York Times"), ("api-key", key)])`.
Percent-encoding is elided (the inputs exercised here are URL-safe); the
space encoding of the fixed filter constant is kept. -/
def _encode_base_url (api_key query : String) : String :=
  "q=" ++ query ++ "&fq=The+New+York+Times&api-key=" ++ api_key

/-- Python `str.isdigit` restricted to ASCII: nonempty and all digits. -/
def pyIsDigit (s : String) : Bool :=
  !s.isEmpty && s.data.all Char.isDigit

/-- The guard `if year and year.isdigit():` of nyt.py lines 187 and 190:
Python truthiness of the optional string, then the digit test. -/
def validYear : Option String → Bool
  | none => false
  | some s => s != "" && pyIsDigit s

/-- Python `query.split(" ")` (split on the explicit single-space
separator, keeping empty parts; `"".split(" ")` is `[""]`). -/
def pySplitSpaceAux : List Char → List Char → List String
  | [], acc => [String.mk acc.reverse]
  | c :: cs, acc =>
    if c = ' ' then String.mk acc.reverse :: pySplitSpaceAux cs []
    else pySplitSpaceAux cs (c :: acc)

def pySplitSpace (s : String) : List String :=
  pySplitSpaceAux s.data []

/-- The endpoint URL and cache key assembled by `_set_endpoint_url`. -/
structure Endpoint where
  query_url : String
  query_key : String
deriving DecidableEq, Repr

/-- Embedding of `_set_endpoint_url` (nyt.py lines 173-216).  `today` is
the value of `datetime.datetime.now().date()` at the call.  Note that the
source emits no warning on an invalid year input: the bound is silently
dropped. -/
def _set_endpoint_url (api_key query : String)
    (year_from year_to : Option String) (text_includes : List String)
    (today : PyDate) : Endpoint :=
  let query_url := _encode_base_url api_key query
  let query_key_sdate := _date_to_str ⟨1851, 1, 1⟩
  let query_key_edate := _date_to_str today
  let (query_key_sdate, query_url) :=
    if validYear year_from then
      let s := (year_from.getD "") ++ "0101"
      (s, query_url ++ "&begin_date=" ++ s)
    else (query_key_sdate, query_url)
  let (query_key_edate, query_url) :=
    if validYear year_to then
      let s := (year_to.getD "") ++ "1231"
      (s, query_url ++ "&end_date=" ++ s)
    else (query_key_edate, query_url)
  let query_key := [query_key_sdate, query_key_edate]
  let query_url :=
    if !text_includes.isEmpty then
      query_url ++ "&fl=" ++ ",".intercalate text_includes
    else query_url
  let query_url := query_url ++ ",pub_date"
  let query_url := query_url ++ ",section_name"
  let query_url :=
    if !(text_includes.contains "keywords") then query_url ++ ",keywords"
    else query_url
  let full_url := nytBaseUrl ++ "?" ++ query_url
  let query_key := query_key ++ pySplitSpace query ++ text_includes
  { query_url := full_url, query_key := "_".intercalate query_key }

/-! ### The cached page fetcher `_execute_query` (nyt.py lines 218-257) -/

/-- Outcome of one `urlopen` call: a 200 response body, an `HTTPError`
(non-success status) or a `URLError` (transport failure). -/
inductive NetResult where
  | ok (body : String)
  | httpError
  | urlError
deriving DecidableEq, Repr

/-- The ambient effects of the module: the network and `json.loads`
(which raises `ValueError` on malformed input). -/
structure Env where
  net : String → NetResult
  loads : String → Except PyErr J

/-- The transport errors caught by `except (HTTPError, URLError)`. -/
inductive TransErr where
  | http
  | url
deriving DecidableEq, Repr

/-- The on-disk `shelve` cache: raw response text keyed by query key. -/
abbrev Cache := List (String × String)

def cacheFind (c : Cache) (k : String) : Option String :=
  (c.find? (fun kv => kv.1 == k)).map Prod.snd

def cacheInsert (c : Cache) (k v : String) : Cache :=
  (k, v) :: c

/-- The triple returned by `_execute_query`: parsed response data (the
initial `""` when a transport error was caught), the cache flag, and the
caught error if any. -/
structure ExecOutcome where
  response_data : J
  is_cached : Bool
  error : Option TransErr

/-- Embedding of `_execute_query` (nyt.py lines 218-257).  Returns the
updated cache and the number of `urlopen` calls made (0 or 1) alongside the
outcome; `json.loads` failures (`ValueError`) are uncaught and surface as
`Except.error`, after the raw response has already been stored in the cache
on the network path.  The warning for an unset query URL (lines 228-229) is
unreachable from `run_query`, which always assembles the URL first. -/
def pageUrlOf (query_url : String) (page : Nat) : String :=
  query_url ++ "&page=" ++ String.mk (decDigits page)

def pageKeyOf (query_key : String) (page : Nat) : String :=
  query_key ++ "_" ++ String.mk (decDigits page)

def _execute_query (env : Env) (cache : Cache)
    (query_url query_key : String) (page : Nat) :
    (Cache × Nat) × Except PyErr ExecOutcome :=
  let current_query := pageUrlOf query_url page
  let current_query_key := pageKeyOf query_key page
  match cacheFind cache current_query_key with
  | some response =>
    ((cache, 0), do
      let data ← env.loads response
      pure ⟨data, true, none⟩)
  | none =>
    match env.net current_query with
    | .ok response =>
      let cache := cacheInsert cache current_query_key response
      ((cache, 1), do
        let data ← env.loads response
        pure ⟨data, false, none⟩)
    | .httpError => ((cache, 1), .ok ⟨J.str "", false, some .http⟩)
    | .urlError => ((cache, 1), .ok ⟨J.str "", false, some .url⟩)

/-! ### The paging driver `run_query` (nyt.py lines 118-171) -/

/-- Embedding of `check_api_key` (nyt.py lines 118-129): a probe request
with the query `"test"` and `page=0`.  A 200 response yields `True`, an
`HTTPError` yields `False`, any other status falls off the function
(Python's implicit `None`, falsy — modelled as `false` since only the
truthiness of the result is consumed), and a `URLError` is uncaught. -/
def probeUrl (api_key : String) : String :=
  nytBaseUrl ++ "?" ++ _encode_base_url api_key "test" ++ "&page=0"

def check_api_key (env : Env) (api_key : String) : Except PyErr Bool :=
  match env.net (probeUrl api_key) with
  | .ok _ => .ok true
  | .httpError => .ok false
  | .urlError => .error .urlError

/-- The warnings emitted by the module (`warnings.warn` calls). -/
inductive Warn where
  | invalidApiKey
  | tooManyRecords
  | pageFailed (page : Nat)
deriving DecidableEq, Repr

/-- The failure test of nyt.py line 162:
`(data is None) or ('response' not in data) or ('docs' not in data['response'])`,
with Python's left-to-right short-circuit evaluation. -/
def pageFailure (data : J) : Except PyErr Bool :=
  match data with
  | .null => .ok true
  | data => do
    let hasResp ← pyContains data "response"
    if !hasResp then pure true
    else do
      let resp ← data.getItem "response"
      let hasDocs ← pyContains resp "docs"
      pure !hasDocs

/-- The extension step of nyt.py line 166:
`records.extend(data["response"]["docs"])`. -/
def pageDocs (data : J) : Except PyErr (List J) := do
  let resp ← data.getItem "response"
  let docs ← resp.getItem "docs"
  docs.iterate

/-- Python slice `xs[:k]` for an `int` bound `k`: a negative bound counts
from the end (clamped at 0), a nonnegative bound is clamped at the length. -/
def pySliceTo {α : Type} (xs : List α) (k : Int) : List α :=
  if k < 0 then xs.take ((xs.length + k).toNat) else xs.take k.toNat

/-- The trimming step of nyt.py lines 168-169:
`if len(records) > max_records: records = records[:(max_records-len(records))]`. -/
def trimRecords {α : Type} (records : List α) (max_records : Int) : List α :=
  if (records.length : Int) > max_records then
    pySliceTo records (max_records - records.length)
  else records

/-- The `num_steps` page count of nyt.py line 158:
`min(math.ceil(max_records/10), 100)`. -/
def numSteps (max_records : Int) : Int :=
  min (Int.fdiv (max_records + 9) 10) 100

/-- State of the page loop of nyt.py lines 159-166, plus the trace data
(warnings, cache, `urlopen` count) and the pending uncaught exception. -/
structure LoopSt where
  records : List J
  cache : Cache
  warns : List Warn
  calls : Nat
  err : Option PyErr

/-- One iteration of `for i in range(0, num_steps):` (nyt.py lines 160-166).
Once an exception is pending the loop body no longer runs. -/
def runQueryStep (env : Env) (query_url query_key : String)
    (st : LoopSt) (page : Nat) : LoopSt :=
  match st.err with
  | some _ => st
  | none =>
    let ((cache, nc), res) := _execute_query env st.cache query_url query_key page
    let st := { st with cache := cache, calls := st.calls + nc }
    match res with
    | .error e => { st with err := some e }
    | .ok out =>
      match pageFailure out.response_data with
      | .error e => { st with err := some e }
      | .ok true => { st with warns := st.warns ++ [.pageFailed page] }
      | .ok false =>
        match pageDocs out.response_data with
        | .error e => { st with err := some e }
        | .ok docs => { st with records := st.records ++ docs }

/-- Result of a `run_query` call: the warnings emitted, the final on-disk
cache, the number of `urlopen` calls performed, and either the uncaught
exception or the trimmed record list with the generated corpus. -/
structure RunResult where
  warnings : List Warn
  cache : Cache
  netCalls : Nat
  outcome : Except PyErr (List J × Corpus)

/-- Embedding of `run_query` (nyt.py lines 131-171).  `today` is the date
at which `_set_endpoint_url` reads `datetime.datetime.now()`; `cache0` is
the on-disk cache contents at the start of the call.  The API key probe,
the invalid-key and `max_records > 1000` warnings, the page loop, the
trimming step and corpus generation follow the source line by line. -/
def run_query (env : Env) (cache0 : Cache) (api_key query : String)
    (year_from year_to : Option String) (max_records : Int)
    (today : PyDate) : RunResult :=
  match check_api_key env api_key with
  | .error e =>
    { warnings := [], cache := cache0, netCalls := 1, outcome := .error e }
  | .ok valid =>
    let warns := if !valid then [Warn.invalidApiKey] else []
    let ep := _set_endpoint_url api_key query year_from year_to NYT_TEXT_FIELDS today
    let warns := warns ++ (if max_records > 1000 then [Warn.tooManyRecords] else [])
    let st0 : LoopSt :=
      { records := [], cache := cache0, warns := warns, calls := 1, err := none }
    let st := (List.range (numSteps max_records).toNat).foldl
      (runQueryStep env ep.query_url ep.query_key) st0
    match st.err with
    | some e =>
      { warnings := st.warns, cache := st.cache, netCalls := st.calls,
        outcome := .error e }
    | none =>
      let records := trimRecords st.records max_records
      { warnings := st.warns, cache := st.cache, netCalls := st.calls,
        outcome := (_generate_corpus records NYT_TEXT_FIELDS).map
          (fun c => (records, c)) }

/-! ### Sample data and environments used in concrete instantiations -/

/-- A well-formed API response payload carrying the given records:
`{"response": {"docs": [...]}}`. -/
def mkResp (docs : List J) : J :=
  J.obj [("response", J.obj [("docs", J.arr docs)])]

/-- A fully populated sample record: every configured text field, a
glocation keyword, a publication date and a section name. -/
def sampleDoc : J :=
  J.obj [("headline", J.obj [("main", J.str "h")]),
    ("lead_paragraph", J.str "l"), ("snippet", J.str "s"),
    ("abstract", J.str "a"),
    ("keywords", J.arr [J.obj [("name", J.str "glocations"), ("value", J.str "Paris")]]),
    ("pub_date", J.str "2020-03-05"), ("section_name", J.str "World")]

def sampleBody : String := "BODY"

/-- Environment in which every request succeeds and every page carries one
well-formed record. -/
def envAllOk : Env :=
  { net := fun _ => .ok sampleBody, loads := fun _ => .ok (mkResp [sampleDoc]) }

/-- A record with no `"keywords"` key: flattening it reaches
`doc["keywords"]` and raises `KeyError`. -/
def docNoKeywords : J := J.obj []

/-- Environment whose pages deliver a record without `"keywords"`. -/
def envNoKeywords : Env :=
  { net := fun _ => .ok sampleBody, loads := fun _ => .ok (mkResp [docNoKeywords]) }

/-- Environment whose network is down entirely: every `urlopen` raises
`URLError`, including the API-key probe. -/
def envNetDown : Env :=
  { net := fun _ => .urlError, loads := fun _ => .error .valueError }

/-- Fields of a record that lacks the configured field `"abstract"`. -/
def docMissingKvs : List (String × J) :=
  [("headline", J.str "h"), ("lead_paragraph", J.str "l"),
   ("snippet", J.str "s"), ("keywords", J.arr []), ("pub_date", J.str "2020")]

def docMissingAbstract : J := J.obj docMissingKvs

/-- The common prefix of every page-fetch URL issued by the query
`"q"` with key `"K"` and no year bounds on 2026-10-12. -/
def pageUrlStem : String :=
  (_set_endpoint_url "K" "q" none none NYT_TEXT_FIELDS ⟨2026, 10, 12⟩).query_url
    ++ "&page="

/-- Environment whose API-key probe succeeds but in which every page fetch
hits a transport error. -/
def envPagesDown : Env :=
  { net := fun url =>
      if charsPrefixOf pageUrlStem.data url.data then .urlError else .ok "200",
    loads := fun _ => .error .valueError }

/-- The corpus of an empty record list. -/
def emptyCorpus : Corpus :=
  { documents := [], Y := [], metas := [], domainValues := [] }

/-- Separator-prefixed concatenation, the tail shape of
`String.intercalate`. -/
def sepConcat (s : String) (l : List String) : String :=
  match l with
  | [] => ""
  | a :: as => s ++ a ++ sepConcat s as

/-! ## Proofs

Helper lemmas first, then one theorem per claim (with witnesses and
counterexamples). -/

theorem decValue_foldl_init (cs : List Char) (a : Nat) :
    cs.foldl (fun a c => a * 10 + (c.toNat - 48)) a
      = a * 10 ^ cs.length + decValue cs := by
  induction cs generalizing a with
  | nil => simp [decValue]
  | cons c cs ih =>
    simp only [List.foldl_cons, List.length_cons, decValue]
    rw [ih, ih (0 * 10 + (c.toNat - 48))]
    ring

theorem decValue_append (xs ys : List Char) :
    decValue (xs ++ ys) = decValue xs * 10 ^ ys.length + decValue ys := by
  simp only [decValue, List.foldl_append]
  rw [decValue_foldl_init ys (List.foldl _ 0 xs)]
  rfl

theorem digitChar_toNat (k : Nat) (h : k < 10) : (Nat.digitChar k).toNat = 48 + k := by
  interval_cases k <;> rfl

theorem decValue_decDigitsAux (fuel n : Nat) (h : n < 10 ^ fuel) :
    decValue (decDigitsAux fuel n) = n := by
  induction fuel generalizing n with
  | zero =>
    simp only [pow_zero, Nat.lt_one_iff] at h
    simp [decDigitsAux, decValue, h]
  | succ fuel ih =>
    by_cases hn : n < 10
    · simp [decDigitsAux, hn, decValue, digitChar_toNat n hn]
    · have hdiv : n / 10 < 10 ^ fuel := by
        rw [Nat.div_lt_iff_lt_mul (by norm_num)]
        calc n < 10 ^ (fuel + 1) := h
        _ = 10 ^ fuel * 10 := by ring
      simp only [decDigitsAux, hn, if_false]
      rw [decValue_append, ih _ hdiv]
      simp only [List.length_singleton, pow_one, decValue, List.foldl_cons,
        List.foldl_nil, Nat.zero_mul, Nat.zero_add]
      rw [digitChar_toNat (n % 10) (Nat.mod_lt _ (by norm_num))]
      omega

theorem decValue_decDigits (n : Nat) : decValue (decDigits n) = n := by
  apply decValue_decDigitsAux
  calc n < 10 ^ n := Nat.lt_pow_self (by norm_num) n
  _ ≤ 10 ^ (n + 1) := Nat.pow_le_pow_right (by norm_num) (Nat.le_succ n)

theorem decValue_replicate_zero (k : Nat) :
    decValue (List.replicate k '0') = 0 := by
  induction k with
  | zero => rfl
  | succ k ih =>
    have : List.replicate (k + 1) '0' = '0' :: List.replicate k '0' := rfl
    rw [this]
    simpa [decValue] using ih

theorem decValue_padDec (w n : Nat) : decValue (padDec w n) = n := by
  rw [padDec, decValue_append, decValue_replicate_zero, decValue_decDigits]
  simp

theorem decDigitsAux_length_le (fuel n k : Nat) (hk : 1 ≤ k) (h : n < 10 ^ k) :
    (decDigitsAux fuel n).length ≤ k := by
  induction fuel generalizing n k with
  | zero => simp [decDigitsAux]
  | succ fuel ih =>
    by_cases hn : n < 10
    · simp [decDigitsAux, hn]
      omega
    · have hk2 : 2 ≤ k := by
        by_contra hlt
        have : k = 1 := by omega
        subst this
        simp only [pow_one] at h
        omega
      have hdiv : n / 10 < 10 ^ (k - 1) := by
        rw [Nat.div_lt_iff_lt_mul (by norm_num)]
        calc n < 10 ^ k := h
        _ = 10 ^ (k - 1) * 10 := by
              rw [← pow_succ]
              congr 1
              omega
      simp only [decDigitsAux, hn, if_false, List.length_append,
        List.length_singleton]
      have := ih (n / 10) (k - 1) (by omega) hdiv
      omega

theorem decDigits_length_le (n k : Nat) (hk : 1 ≤ k) (h : n < 10 ^ k) :
    (decDigits n).length ≤ k :=
  decDigitsAux_length_le (n + 1) n k hk h

theorem padDec_length (w n : Nat) (hw : 1 ≤ w) (h : n < 10 ^ w) :
    (padDec w n).length = w := by
  have := decDigits_length_le n w hw h
  simp only [padDec, List.length_append, List.length_replicate]
  omega

/-- The date encoding distinguishes any two in-range dates: this is the
injectivity that makes the cache key date-sensitive. -/
theorem _date_to_str_inj (d1 d2 : PyDate)
    (h1m : d1.month < 100) (h1d : d1.day < 100)
    (h2m : d2.month < 100) (h2d : d2.day < 100)
    (h : _date_to_str d1 = _date_to_str d2) : d1 = d2 := by
  have hdata : padDec 4 d1.year ++ padDec 2 d1.month ++ padDec 2 d1.day
      = padDec 4 d2.year ++ padDec 2 d2.month ++ padDec 2 d2.day := by
    have := congrArg String.data h
    simpa [_date_to_str] using this
  have hv := congrArg decValue hdata
  have l1m := padDec_length 2 d1.month (by norm_num) (by simpa using h1m)
  have l1d := padDec_length 2 d1.day (by norm_num) (by simpa using h1d)
  have l2m := padDec_length 2 d2.month (by norm_num) (by simpa using h2m)
  have l2d := padDec_length 2 d2.day (by norm_num) (by simpa using h2d)
  rw [decValue_append, decValue_append, decValue_append, decValue_append,
    decValue_padDec, decValue_padDec, decValue_padDec, decValue_padDec,
    decValue_padDec, decValue_padDec, l1m, l1d, l2m, l2d] at hv
  have hy : d1.year = d2.year := by omega
  have hm : d1.month = d2.month := by omega
  have hd : d1.day = d2.day := by omega
  cases d1
  cases d2
  simp_all

/-! ### String and list helpers -/

theorem intercalate_go_eq (s : String) :
    ∀ (l : List String) (acc : String),
      String.intercalate.go acc s l = acc ++ sepConcat s l := by
  intro l
  induction l with
  | nil =>
    intro acc
    show acc = acc ++ ""
    rw [String.append_empty]
  | cons a as ih =>
    intro acc
    show String.intercalate.go (acc ++ s ++ a) s as = acc ++ sepConcat s (a :: as)
    rw [ih]
    show acc ++ s ++ a ++ sepConcat s as = acc ++ (s ++ a ++ sepConcat s as)
    simp [String.append_assoc]

theorem intercalate_eq_sepConcat (s a : String) (l : List String) :
    String.intercalate s (a :: l) = a ++ sepConcat s l := by
  show String.intercalate.go a s l = a ++ sepConcat s l
  exact intercalate_go_eq s l a

theorem intercalate_cons_of_ne_nil (s a : String) (l : List String) (h : l ≠ []) :
    String.intercalate s (a :: l) = a ++ s ++ String.intercalate s l := by
  match l with
  | [] => exact absurd rfl h
  | b :: r =>
    rw [intercalate_eq_sepConcat, intercalate_eq_sepConcat]
    show a ++ (s ++ b ++ sepConcat s r) = a ++ s ++ (b ++ sepConcat s r)
    simp [String.append_assoc]

theorem charsPrefixOf_append (xs ys : List Char) :
    charsPrefixOf xs (xs ++ ys) = true := by
  induction xs with
  | nil => rfl
  | cons c cs ih => simp [charsPrefixOf, ih]

theorem mk_decDigits_inj {p q : Nat}
    (h : String.mk (decDigits p) = String.mk (decDigits q)) : p = q := by
  have hd : decDigits p = decDigits q := by
    have := congrArg String.data h
    simpa using this
  have := congrArg decValue hd
  simpa [decValue_decDigits] using this

/-! ### Cache helpers -/

theorem cacheFind_cons (k v k' : String) (c : Cache) :
    cacheFind ((k, v) :: c) k' = if k == k' then some v else cacheFind c k' := by
  simp only [cacheFind, List.find?]
  cases h : (k == k') <;> simp [h]

theorem pageKeyOf_inj (key : String) {p q : Nat}
    (h : pageKeyOf key p = pageKeyOf key q) : p = q := by
  have hd := congrArg String.data h
  simp only [pageKeyOf, String.data_append, List.append_assoc] at hd
  have h1 := List.append_cancel_left hd
  have h2 := List.append_cancel_left h1
  exact mk_decDigits_inj (String.ext h2)

theorem cacheFind_map_inj (f g : Nat → String) (l : List Nat) (c0 : Cache)
    (hinj : ∀ a b, f a = f b → a = b) (q : Nat) (hq : q ∈ l) :
    cacheFind ((l.map (fun p => (f p, g p))) ++ c0) (f q) = some (g q) := by
  induction l with
  | nil => cases hq
  | cons p ps ih =>
    simp only [List.map_cons, List.cons_append, cacheFind_cons]
    cases hbe : (f p == f q) with
    | true =>
      have : p = q := hinj p q (by simpa using hbe)
      simp [this]
    | false =>
      have hne : f p ≠ f q := by simpa using hbe
      have : q ∈ ps := by
        rcases List.mem_cons.mp hq with h | h
        · exact absurd (by rw [h]) hne
        · exact h
      simpa using ih this

/-! ### Page-fetch step lemmas -/

theorem pageFailure_emptyStr : pageFailure (J.str "") = .ok true := rfl

theorem pageFailure_mkResp (docs : List J) : pageFailure (mkResp docs) = .ok false := rfl

theorem pageDocs_mkResp (docs : List J) : pageDocs (mkResp docs) = .ok docs := rfl

theorem runQueryStep_fail (env : Env) (url key : String)
    (records : List J) (cache : Cache) (warns : List Warn) (calls : Nat) (p : Nat)
    (hcache : cacheFind cache (pageKeyOf key p) = none)
    (hnet : env.net (pageUrlOf url p) = NetResult.urlError
      ∨ env.net (pageUrlOf url p) = NetResult.httpError) :
    runQueryStep env url key ⟨records, cache, warns, calls, none⟩ p
      = ⟨records, cache, warns ++ [.pageFailed p], calls + 1, none⟩ := by
  rcases hnet with hnet | hnet <;>
    simp [runQueryStep, _execute_query, hcache, hnet, pageFailure_emptyStr]

theorem runQueryStep_good (env : Env) (url key : String)
    (records : List J) (cache : Cache) (warns : List Warn) (calls : Nat) (p : Nat)
    (body : String) (docs : List J)
    (hcache : cacheFind cache (pageKeyOf key p) = none)
    (hnet : env.net (pageUrlOf url p) = .ok body)
    (hloads : env.loads body = .ok (mkResp docs)) :
    runQueryStep env url key ⟨records, cache, warns, calls, none⟩ p
      = ⟨records ++ docs, cacheInsert cache (pageKeyOf key p) body,
         warns, calls + 1, none⟩ := by
  simp [runQueryStep, _execute_query, hcache, hnet, hloads,
    pageFailure_mkResp, pageDocs_mkResp]

theorem runQueryStep_cached (env : Env) (url key : String)
    (records : List J) (cache : Cache) (warns : List Warn) (calls : Nat) (p : Nat)
    (body : String) (docs : List J)
    (hcache : cacheFind cache (pageKeyOf key p) = some body)
    (hloads : env.loads body = .ok (mkResp docs)) :
    runQueryStep env url key ⟨records, cache, warns, calls, none⟩ p
      = ⟨records ++ docs, cache, warns, calls, none⟩ := by
  simp [runQueryStep, _execute_query, hcache, hloads,
    pageFailure_mkResp, pageDocs_mkResp]

/-! ### Page-loop invariants -/

theorem runQueryLoop_mixed (env : Env) (url key : String) (body : Nat → String)
    (docs : Nat → List J) (good : Nat → Bool) :
    ∀ (pages : List Nat) (records : List J) (cache : Cache)
      (warns : List Warn) (calls : Nat), pages.Nodup →
    (∀ p ∈ pages, good p = true → env.net (pageUrlOf url p) = .ok (body p)) →
    (∀ p ∈ pages, good p = true → env.loads (body p) = .ok (mkResp (docs p))) →
    (∀ p ∈ pages, good p = false →
      env.net (pageUrlOf url p) = NetResult.urlError
        ∨ env.net (pageUrlOf url p) = NetResult.httpError) →
    (∀ p ∈ pages, cacheFind cache (pageKeyOf key p) = none) →
    pages.foldl (runQueryStep env url key) ⟨records, cache, warns, calls, none⟩
      = ⟨records ++ pages.foldr (fun p acc => (if good p then docs p else []) ++ acc) [],
         ((pages.filter good).reverse.map
            (fun p => (pageKeyOf key p, body p))) ++ cache,
         warns ++ (pages.filter (fun p => !good p)).map Warn.pageFailed,
         calls + pages.length, none⟩ := by
  intro pages
  induction pages with
  | nil =>
    intro records cache warns calls _ _ _ _ _
    simp
  | cons p ps ih =>
    intro records cache warns calls hnodup hnet hloads hbad hcache
    have hpnotin : p ∉ ps := (List.nodup_cons.mp hnodup).1
    have hnodup' : ps.Nodup := (List.nodup_cons.mp hnodup).2
    cases hgp : good p with
    | true =>
      have hstep := runQueryStep_good env url key records cache warns calls p
        (body p) (docs p)
        (hcache p (List.mem_cons_self p ps))
        (hnet p (List.mem_cons_self p ps) hgp)
        (hloads p (List.mem_cons_self p ps) hgp)
      rw [List.foldl_cons, hstep]
      rw [ih (records ++ docs p) (cacheInsert cache (pageKeyOf key p) (body p))
        warns (calls + 1) hnodup'
        (fun q hq hgq => hnet q (List.mem_cons_of_mem p hq) hgq)
        (fun q hq hgq => hloads q (List.mem_cons_of_mem p hq) hgq)
        (fun q hq hgq => hbad q (List.mem_cons_of_mem p hq) hgq)
        ?hc]
      case hc =>
        intro q hq
        have hqp : q ≠ p := fun h => hpnotin (h ▸ hq)
        simp only [cacheInsert, cacheFind_cons]
        have hne : (pageKeyOf key p == pageKeyOf key q) = false := by
          apply beq_eq_false_iff_ne.mpr
          intro h
          exact hqp (pageKeyOf_inj key h).symm
        rw [hne]
        simp only [Bool.false_eq_true, if_false]
        exact hcache q (List.mem_cons_of_mem p hq)
      simp only [List.foldr_cons, List.filter_cons, hgp, if_true, Bool.not_true,
        Bool.false_eq_true, if_false, List.reverse_cons, List.map_append,
        List.map_cons, List.map_nil, List.length_cons, cacheInsert, LoopSt.mk.injEq]
      simp [List.append_assoc, Nat.add_assoc, Nat.add_comm, Nat.add_left_comm]
    | false =>
      have hstep := runQueryStep_fail env url key records cache warns calls p
        (hcache p (List.mem_cons_self p ps))
        (hbad p (List.mem_cons_self p ps) hgp)
      rw [List.foldl_cons, hstep]
      rw [ih records cache (warns ++ [Warn.pageFailed p]) (calls + 1) hnodup'
        (fun q hq hgq => hnet q (List.mem_cons_of_mem p hq) hgq)
        (fun q hq hgq => hloads q (List.mem_cons_of_mem p hq) hgq)
        (fun q hq hgq => hbad q (List.mem_cons_of_mem p hq) hgq)
        (fun q hq => hcache q (List.mem_cons_of_mem p hq))]
      simp only [List.foldr_cons, List.filter_cons, hgp, Bool.not_false,
        Bool.false_eq_true, if_false, if_true, List.map_cons, List.length_cons,
        List.nil_append, LoopSt.mk.injEq]
      simp [List.append_assoc, Nat.add_assoc, Nat.add_comm, Nat.add_left_comm]

theorem runQueryLoop_cached (env : Env) (url key : String) (body : Nat → String)
    (docs : Nat → List J) :
    ∀ (pages : List Nat) (records : List J) (cache : Cache)
      (warns : List Warn) (calls : Nat),
    (∀ p ∈ pages, cacheFind cache (pageKeyOf key p) = some (body p)) →
    (∀ p ∈ pages, env.loads (body p) = .ok (mkResp (docs p))) →
    pages.foldl (runQueryStep env url key) ⟨records, cache, warns, calls, none⟩
      = ⟨records ++ pages.foldr (fun p acc => docs p ++ acc) [],
         cache, warns, calls, none⟩ := by
  intro pages
  induction pages with
  | nil =>
    intro records cache warns calls _ _
    simp
  | cons p ps ih =>
    intro records cache warns calls hcache hloads
    have hstep := runQueryStep_cached env url key records cache warns calls p
      (body p) (docs p)
      (hcache p (List.mem_cons_self p ps))
      (hloads p (List.mem_cons_self p ps))
    rw [List.foldl_cons, hstep]
    rw [ih (records ++ docs p) cache warns calls
      (fun q hq => hcache q (List.mem_cons_of_mem p hq))
      (fun q hq => hloads q (List.mem_cons_of_mem p hq))]
    simp [List.append_assoc]

theorem foldr_pages_nil {α : Type} (good : Nat → Bool) (docs : Nat → List α)
    (l : List Nat) (h : ∀ p ∈ l, good p = false) :
    l.foldr (fun p acc => (if good p then docs p else []) ++ acc) [] = ([] : List α) := by
  induction l with
  | nil => rfl
  | cons p ps ih =>
    have hp := h p (List.mem_cons_self p ps)
    simp only [List.foldr_cons, hp, Bool.false_eq_true, if_false, List.nil_append]
    exact ih (fun q hq => h q (List.mem_cons_of_mem p hq))

theorem run_query_mixed (env : Env) (cache0 : Cache) (api_key query : String)
    (yf yt : Option String) (max_records : Int) (today : PyDate)
    (body0 : String) (body : Nat → String) (docs : Nat → List J) (good : Nat → Bool)
    (hprobe : env.net (probeUrl api_key) = .ok body0)
    (hnet : ∀ p ∈ List.range (numSteps max_records).toNat, good p = true →
      env.net (pageUrlOf
        (_set_endpoint_url api_key query yf yt NYT_TEXT_FIELDS today).query_url p)
        = .ok (body p))
    (hloads : ∀ p ∈ List.range (numSteps max_records).toNat, good p = true →
      env.loads (body p) = .ok (mkResp (docs p)))
    (hbad : ∀ p ∈ List.range (numSteps max_records).toNat, good p = false →
      env.net (pageUrlOf
        (_set_endpoint_url api_key query yf yt NYT_TEXT_FIELDS today).query_url p)
        = NetResult.urlError
      ∨ env.net (pageUrlOf
        (_set_endpoint_url api_key query yf yt NYT_TEXT_FIELDS today).query_url p)
        = NetResult.httpError)
    (hcache : ∀ p ∈ List.range (numSteps max_records).toNat,
      cacheFind cache0
        (pageKeyOf
          (_set_endpoint_url api_key query yf yt NYT_TEXT_FIELDS today).query_key p)
        = none) :
    run_query env cache0 api_key query yf yt max_records today
      = { warnings := (if max_records > 1000 then [Warn.tooManyRecords] else [])
            ++ ((List.range (numSteps max_records).toNat).filter
                (fun p => !good p)).map Warn.pageFailed
          cache := (((List.range (numSteps max_records).toNat).filter good).reverse.map
              (fun p =>
                (pageKeyOf
                  (_set_endpoint_url api_key query yf yt NYT_TEXT_FIELDS today).query_key p,
                 body p))) ++ cache0
          netCalls := 1 + (numSteps max_records).toNat
          outcome :=
            (_generate_corpus
              (trimRecords ((List.range (numSteps max_records).toNat).foldr
                (fun p acc => (if good p then docs p else []) ++ acc) []) max_records)
              NYT_TEXT_FIELDS).map
              (fun c =>
                (trimRecords ((List.range (numSteps max_records).toNat).foldr
                  (fun p acc => (if good p then docs p else []) ++ acc) []) max_records,
                 c)) } := by
  unfold run_query check_api_key
  rw [hprobe]
  simp only [Bool.not_true, Bool.false_eq_true, if_false, List.nil_append]
  rw [runQueryLoop_mixed env _ _ body docs good
    (List.range (numSteps max_records).toNat) [] cache0 _ 1
    (List.nodup_range _) hnet hloads hbad hcache]
  simp [List.length_range]

theorem run_query_cached_eval (env : Env) (cache1 : Cache) (api_key query : String)
    (yf yt : Option String) (max_records : Int) (today : PyDate)
    (body0 : String) (body : Nat → String) (docs : Nat → List J)
    (hprobe : env.net (probeUrl api_key) = .ok body0)
    (hcache : ∀ p ∈ List.range (numSteps max_records).toNat,
      cacheFind cache1
        (pageKeyOf
          (_set_endpoint_url api_key query yf yt NYT_TEXT_FIELDS today).query_key p)
        = some (body p))
    (hloads : ∀ p ∈ List.range (numSteps max_records).toNat,
      env.loads (body p) = .ok (mkResp (docs p))) :
    run_query env cache1 api_key query yf yt max_records today
      = { warnings := if max_records > 1000 then [Warn.tooManyRecords] else []
          cache := cache1
          netCalls := 1
          outcome :=
            (_generate_corpus
              (trimRecords ((List.range (numSteps max_records).toNat).foldr
                (fun p acc => docs p ++ acc) []) max_records)
              NYT_TEXT_FIELDS).map
              (fun c =>
                (trimRecords ((List.range (numSteps max_records).toNat).foldr
                  (fun p acc => docs p ++ acc) []) max_records,
                 c)) } := by
  unfold run_query check_api_key
  rw [hprobe]
  simp only [Bool.not_true, Bool.false_eq_true, if_false, List.nil_append]
  rw [runQueryLoop_cached env _ _ body docs
    (List.range (numSteps max_records).toNat) [] cache1 _ 1 hcache hloads]
  simp

/-! ## Claim theorems -/

/-- C1: in `run_query`, when more records are retrieved than `max_records`
the trimming step `records[:(max_records-len(records))]` returns exactly the
first `max_records` retrieved records (the negative Python slice bound
`max_records - len(records)` counts from the end and lands exactly at index
`max_records`), and when the retrieved count is at most `max_records` no
record is dropped. -/
theorem claim_C1_trimming {α : Type} (records : List α) (max_records : Int)
    (hmax : 0 ≤ max_records) :
    ((records.length : Int) > max_records →
      trimRecords records max_records = records.take max_records.toNat
        ∧ ((trimRecords records max_records).length : Int) = max_records)
    ∧ ((records.length : Int) ≤ max_records →
      trimRecords records max_records = records) := by
  constructor
  · intro hgt
    have hneg : max_records - (records.length : Int) < 0 := by omega
    have heq : (((records.length : Int)) + (max_records - (records.length : Int))).toNat
        = max_records.toNat := by omega
    have htrim : trimRecords records max_records = records.take max_records.toNat := by
      simp only [trimRecords, if_pos hgt, pySliceTo, if_pos hneg, heq]
    refine ⟨htrim, ?_⟩
    rw [htrim]
    simp only [List.length_take]
    omega
  · intro hle
    simp only [trimRecords]
    rw [if_neg (by omega)]

/-- Witness for C1 at concrete inputs: three retrieved records trimmed to a
limit of two keep exactly the first two, and two records with a limit of
three are untouched. -/
theorem claim_C1_trimming_witness :
    trimRecords [0, 1, 2] (2 : Int) = [0, 1]
      ∧ trimRecords [0, 1] (3 : Int) = [0, 1] := by
  constructor
  · have h := (claim_C1_trimming [0, 1, 2] 2 (by norm_num)).1 (by norm_num)
    exact h.1
  · exact (claim_C1_trimming [0, 1] 3 (by norm_num)).2 (by norm_num)

theorem except_ok_bind {e a b : Type} (x : a) (f : a → Except e b) :
    (Except.ok x >>= f) = f x := rfl

theorem mapM_expectStr_map (l : List String) :
    (l.map J.str).mapM J.expectStr = Except.ok l := by
  induction l with
  | nil => rfl
  | cons x xs ih =>
    simp only [List.map_cons, List.mapM_cons, ih, J.expectStr]
    rfl

theorem mapM_getItem_value (l : List String) :
    (l.map (fun v => J.obj [("value", J.str v)])).mapM (fun kw => kw.getItem "value")
      = Except.ok (l.map J.str) := by
  induction l with
  | nil => rfl
  | cons x xs ih =>
    simp only [List.map_cons, List.mapM_cons, ih]
    rfl

/-- C8: field flattening — a dict-valued field joins its (truthy, string)
values with spaces, a list-valued keyword field joins the `"value"` entries
of its elements with spaces, and a scalar string field passes through
unchanged (the empty string is replaced by the initial `""`, i.e. itself). -/
theorem claim_C8_flattening (entries : List (String × String))
    (hne : ∀ p ∈ entries, p.2 ≠ "") (kwvals : List String) (s : String) :
    flattenField (J.obj (entries.map (fun kv => (kv.1, J.str kv.2))))
      = .ok (J.str (" ".intercalate (entries.map Prod.snd)))
    ∧ flattenField (J.arr (kwvals.map (fun v => J.obj [("value", J.str v)])))
      = .ok (J.str (" ".intercalate kwvals))
    ∧ flattenField (J.str s) = .ok (J.str s) := by
  refine ⟨?_, ?_, ?_⟩
  · have hvals : ((entries.map (fun kv => (kv.1, J.str kv.2))).map Prod.snd).filter J.truthy
        = (entries.map Prod.snd).map J.str := by
      rw [List.map_map, List.map_map]
      apply List.filter_eq_self.mpr
      intro a ha
      obtain ⟨p, hp, rfl⟩ := List.mem_map.mp ha
      simp only [Function.comp_apply, J.truthy, bne_iff_ne, ne_eq, decide_eq_true_eq]
      exact hne p hp
    simp only [flattenField]
    rw [hvals, mapM_expectStr_map]
    exact Except.map_ok _ _
  · have hkws : (kwvals.map (fun v => J.obj [("value", J.str v)])).filter J.truthy
        = kwvals.map (fun v => J.obj [("value", J.str v)]) := by
      apply List.filter_eq_self.mpr
      intro a ha
      obtain ⟨v, _, rfl⟩ := List.mem_map.mp ha
      rfl
    simp only [flattenField]
    rw [hkws, mapM_getItem_value]
    simp only [except_ok_bind]
    rw [mapM_expectStr_map]
    exact Except.map_ok _ _
  · by_cases hs : s = ""
    · subst hs
      rfl
    · have ht : ((s != "") : Bool) = true := by simp [bne_iff_ne, hs]
      simp only [flattenField, J.truthy, ht, if_true]
      rfl

/-- Witness for C8 on the spec's own examples: `{"a":"x","b":"y"}` flattens
to `"x y"`, `[{"value":"p"},{"value":"q"}]` flattens to `"p q"`, and the
scalar `"z"` is unchanged. -/
theorem claim_C8_flattening_witness :
    flattenField (J.obj [("a", J.str "x"), ("b", J.str "y")]) = .ok (J.str "x y")
    ∧ flattenField (J.arr [J.obj [("value", J.str "p")], J.obj [("value", J.str "q")]])
        = .ok (J.str "p q")
    ∧ flattenField (J.str "z") = .ok (J.str "z") := by
  have h := claim_C8_flattening [("a", "x"), ("b", "y")] (by decide) ["p", "q"] "z"
  exact ⟨h.1, h.2.1, h.2.2⟩

theorem gloc_fold (kws : List (String × String)) :
    ∀ acc : List J,
    (kws.map (fun kv => J.obj [("name", J.str kv.1), ("value", J.str kv.2)])).foldlM
      (fun acc kw => do
        let name ← kw.getItem "name"
        if jEqStr name "glocations" then
          let v ← kw.getItem "value"
          pure (acc ++ [v])
        else
          pure acc) acc
      = Except.ok (acc ++ (kws.filter (fun kv => kv.1 == "glocations")).map
          (fun kv => J.str kv.2)) := by
  induction kws with
  | nil =>
    intro acc
    show Except.ok acc = Except.ok (acc ++ [])
    rw [List.append_nil]
  | cons kv kws ih =>
    intro acc
    rw [List.map_cons, List.foldlM_cons]
    have hname : (J.obj [("name", J.str kv.1), ("value", J.str kv.2)]).getItem "name"
        = Except.ok (J.str kv.1) := rfl
    have hval : (J.obj [("name", J.str kv.1), ("value", J.str kv.2)]).getItem "value"
        = Except.ok (J.str kv.2) := rfl
    cases hg : (kv.1 == "glocations") with
    | true =>
      have hbody : (do
            let name ← (J.obj [("name", J.str kv.1), ("value", J.str kv.2)]).getItem "name"
            if jEqStr name "glocations" then
              let v ← (J.obj [("name", J.str kv.1), ("value", J.str kv.2)]).getItem "value"
              pure (acc ++ [v])
            else
              pure acc)
          = Except.ok (acc ++ [J.str kv.2]) := by
        rw [hname, except_ok_bind]
        simp only [jEqStr, hg, if_true]
        rw [hval, except_ok_bind]
        rfl
      rw [hbody, except_ok_bind, ih]
      simp only [List.filter_cons, hg, if_true, List.map_cons]
      simp [List.append_assoc]
    | false =>
      have hbody : (do
            let name ← (J.obj [("name", J.str kv.1), ("value", J.str kv.2)]).getItem "name"
            if jEqStr name "glocations" then
              let v ← (J.obj [("name", J.str kv.1), ("value", J.str kv.2)]).getItem "value"
              pure (acc ++ [v])
            else
              pure acc)
          = Except.ok acc := by
        rw [hname, except_ok_bind]
        simp only [jEqStr, hg, Bool.false_eq_true, if_false]
        rfl
      rw [hbody, except_ok_bind, ih]
      simp only [List.filter_cons, hg, Bool.false_eq_true, if_false]

/-- C9: for a record whose `keywords` list consists of `{name, value}`
entries, the derived location string is exactly the comma-join, in list
order, of the values whose category is `"glocations"` — entries of other
categories contribute nothing. -/
theorem claim_C9_glocations (kvs : List (String × J)) (kws : List (String × String))
    (h : alistFind kvs "keywords"
      = some (J.arr (kws.map
          (fun kv => J.obj [("name", J.str kv.1), ("value", J.str kv.2)])))) :
    glocationString (J.obj kvs)
      = .ok (J.str (",".intercalate
          ((kws.filter (fun kv => kv.1 == "glocations")).map Prod.snd))) := by
  have hget : (J.obj kvs).getItem "keywords"
      = Except.ok (J.arr (kws.map
          (fun kv => J.obj [("name", J.str kv.1), ("value", J.str kv.2)]))) := by
    simp [J.getItem, h]
  simp only [glocationString, hget, except_ok_bind, J.iterate]
  rw [gloc_fold, except_ok_bind]
  simp only [List.nil_append]
  have hmap : ((kws.filter (fun kv => kv.1 == "glocations")).map
        (fun kv => J.str kv.2))
      = ((kws.filter (fun kv => kv.1 == "glocations")).map Prod.snd).map J.str := by
    rw [List.map_map]
    rfl
  rw [hmap, mapM_expectStr_map]
  exact Except.map_ok _ _

/-- Witness for C9: keywords mixing two glocations with another category
yield exactly `"Paris,Rome"`. -/
theorem claim_C9_glocations_witness :
    glocationString (J.obj [("keywords", J.arr
      [J.obj [("name", J.str "glocations"), ("value", J.str "Paris")],
       J.obj [("name", J.str "persons"), ("value", J.str "Bob")],
       J.obj [("name", J.str "glocations"), ("value", J.str "Rome")]])])
      = .ok (J.str "Paris,Rome") :=
  claim_C9_glocations
    [("keywords", J.arr
      [J.obj [("name", J.str "glocations"), ("value", J.str "Paris")],
       J.obj [("name", J.str "persons"), ("value", J.str "Bob")],
       J.obj [("name", J.str "glocations"), ("value", J.str "Rome")]])]
    [("glocations", "Paris"), ("persons", "Bob"), ("glocations", "Rome")] (by rfl)

theorem except_error_bind {e a b : Type} (x : e) (f : a → Except e b) :
    ((Except.error x : Except e a) >>= f) = Except.error x := rfl

theorem normalizeCell_ne (v : J) : normalizeCell v ≠ J.str "" := by
  unfold normalizeCell
  split
  · exact fun h => J.noConfusion h
  · rename_i hv
    intro h
    rw [h] at hv
    exact hv rfl

theorem parseFieldStep_fold_length (kvs : List (String × J)) (fields : List String) :
    ∀ (acc m : List J),
      fields.foldlM (parseFieldStep (J.obj kvs)) acc = Except.ok m →
      m.length = acc.length
        + (fields.filter (fun f => kvs.any (fun kv => kv.1 == f))).length := by
  induction fields with
  | nil =>
    intro acc m h
    have h2 : Except.ok acc = Except.ok m := h
    cases h2
    simp
  | cons f fs ih =>
    intro acc m h
    rw [List.foldlM_cons] at h
    have hpc : pyContains (J.obj kvs) f
        = Except.ok (kvs.any (fun kv => kv.1 == f)) := rfl
    cases hany : kvs.any (fun kv => kv.1 == f) with
    | false =>
      have hstep : parseFieldStep (J.obj kvs) acc f = Except.ok acc := by
        simp only [parseFieldStep, hpc, except_ok_bind, hany, Bool.false_eq_true,
          if_false]
        rfl
      rw [hstep, except_ok_bind] at h
      rw [ih acc m h]
      simp [List.filter_cons, hany]
    | true =>
      have hfind : ∃ v, alistFind kvs f = some v := by
        have hsome : (kvs.find? (fun kv => kv.1 == f)).isSome := by
          rw [List.find?_isSome]
          simpa using hany
        obtain ⟨kv, hkv⟩ := Option.isSome_iff_exists.mp hsome
        exact ⟨kv.2, by simp [alistFind, hkv]⟩
      obtain ⟨v, hv⟩ := hfind
      have hget : (J.obj kvs).getItem f = Except.ok v := by
        simp [J.getItem, hv]
      cases hflat : flattenField v with
      | error e =>
        have hstep : parseFieldStep (J.obj kvs) acc f = Except.error e := by
          simp only [parseFieldStep, hpc, except_ok_bind, hany, if_true, hget,
            hflat, except_error_bind]
        rw [hstep, except_error_bind] at h
        cases h
      | ok fv =>
        have hstep : parseFieldStep (J.obj kvs) acc f = Except.ok (acc ++ [fv]) := by
          simp only [parseFieldStep, hpc, except_ok_bind, hany, if_true, hget,
            hflat]
          rfl
        rw [hstep, except_ok_bind] at h
        rw [ih (acc ++ [fv]) m h]
        simp [List.filter_cons, hany]
        omega

/-- C2 counterexample: a record lacking the configured field `"abstract"`
yields a flattened row of only 6 entries, not the claimed one entry per
configured field plus two derived columns (7); stacking such a record even
raises `ValueError` in `np.vstack`. -/
theorem claim_C2_counterexample :
    (parseDoc docMissingAbstract NYT_TEXT_FIELDS).map (fun rc => rc.1.length)
      = .ok 6
    ∧ NYT_TEXT_FIELDS.length + 2 = 7
    ∧ _parse_record_json [docMissingAbstract] NYT_TEXT_FIELDS
        = .error .valueError :=
  ⟨rfl, rfl, rfl⟩

/-- C2 amended: an absent configured field contributes no entry at all to
the flattened row — the row has one entry per field present in the record,
plus the two derived columns — and no cell of the normalised row is an
empty string (empty strings become the absent-value marker `None`). -/
theorem claim_C2_amended (kvs : List (String × J)) (fields : List String)
    (row : List J) (cls : J)
    (h : parseDoc (J.obj kvs) fields = .ok (row, cls)) :
    row.length = (fields.filter (fun f => kvs.any (fun kv => kv.1 == f))).length + 2
    ∧ ∀ c ∈ row, c ≠ J.str "" := by
  have hpub : (J.obj kvs).get "pub_date" (J.str "")
      = Except.ok ((alistFind kvs "pub_date").getD (J.str "")) := rfl
  have hcls : (J.obj kvs).get "section_name" J.null
      = Except.ok ((alistFind kvs "section_name").getD J.null) := rfl
  cases hm : fields.foldlM (parseFieldStep (J.obj kvs)) ([] : List J) with
  | error e =>
    rw [parseDoc, hm, except_error_bind] at h
    cases h
  | ok m =>
    cases hg : glocationString (J.obj kvs) with
    | error e =>
      rw [parseDoc, hm, except_ok_bind, hpub, except_ok_bind, hg,
        except_error_bind] at h
      cases h
    | ok g =>
      rw [parseDoc, hm, except_ok_bind, hpub, except_ok_bind, hg,
        except_ok_bind, hcls, except_ok_bind] at h
      have h2 : ((m ++ [(alistFind kvs "pub_date").getD (J.str ""), g]).map
            normalizeCell, (alistFind kvs "section_name").getD J.null)
          = (row, cls) := Except.ok.inj h
      have hrow : ((m ++ [(alistFind kvs "pub_date").getD (J.str ""), g]).map
          normalizeCell) = row := congrArg Prod.fst h2
      constructor
      · rw [← hrow]
        simp only [List.length_map, List.length_append]
        rw [parseFieldStep_fold_length kvs fields [] m hm]
        simp
      · intro c hc
        rw [← hrow] at hc
        obtain ⟨x, _, rfl⟩ := List.mem_map.mp hc
        exact normalizeCell_ne x

/-- Witness for C2 amended: the record missing `"abstract"` produces the
6-entry row `[h, l, s, None, 2020, None]` — one entry per present field
plus the two derived columns — with no empty-string cell. -/
theorem claim_C2_amended_witness :
    ([J.str "h", J.str "l", J.str "s", J.null, J.str "2020", J.null] : List J).length
      = (NYT_TEXT_FIELDS.filter
          (fun f => docMissingKvs.any (fun kv => kv.1 == f))).length + 2
    ∧ ∀ c ∈ ([J.str "h", J.str "l", J.str "s", J.null, J.str "2020", J.null] : List J),
        c ≠ J.str "" :=
  claim_C2_amended docMissingKvs NYT_TEXT_FIELDS
    [J.str "h", J.str "l", J.str "s", J.null, J.str "2020", J.null] J.null (by rfl)

theorem set_endpoint_invalid_from (api_key query : String) (year_to : Option String)
    (fields : List String) (today : PyDate) (year_from : Option String)
    (h : validYear year_from = false) :
    _set_endpoint_url api_key query year_from year_to fields today
      = _set_endpoint_url api_key query none year_to fields today := by
  have hnone : validYear none = false := rfl
  simp only [_set_endpoint_url, h, hnone, Bool.false_eq_true, if_false]

theorem set_endpoint_invalid_to (api_key query : String) (year_from : Option String)
    (fields : List String) (today : PyDate) (year_to : Option String)
    (h : validYear year_to = false) :
    _set_endpoint_url api_key query year_from year_to fields today
      = _set_endpoint_url api_key query year_from none fields today := by
  have hnone : validYear none = false := rfl
  simp only [_set_endpoint_url, h, hnone, Bool.false_eq_true, if_false]

/-- C6 amended: a start/end year input that is not composed of digits only
(or is empty or absent) is silently ignored — `run_query` behaves exactly
as if the bound had not been given; in particular no `begin_date`/`end_date`
is added and no warning is emitted (the source has no `warnings.warn` call
on this path). -/
theorem claim_C6_amended (env : Env) (cache0 : Cache) (api_key query : String)
    (year_from year_to : Option String) (max_records : Int) (today : PyDate) :
    (validYear year_from = false →
      run_query env cache0 api_key query year_from year_to max_records today
        = run_query env cache0 api_key query none year_to max_records today)
    ∧ (validYear year_to = false →
      run_query env cache0 api_key query year_from year_to max_records today
        = run_query env cache0 api_key query year_from none max_records today) := by
  constructor
  · intro h
    simp only [run_query,
      set_endpoint_invalid_from api_key query year_to NYT_TEXT_FIELDS today
        year_from h]
  · intro h
    simp only [run_query,
      set_endpoint_invalid_to api_key query year_from NYT_TEXT_FIELDS today
        year_to h]

/-- C6 counterexample: with the non-digit year bound `"19x5"` the bound is
ignored (no `begin_date` parameter appears in the endpoint URL) but, contrary
to the claim, no warning is emitted: the full warning list of the run is
empty. -/
theorem claim_C6_counterexample :
    (run_query envAllOk [] "K" "q" (some "19x5") none 10 ⟨2026, 10, 12⟩).warnings = []
    ∧ charsInfixOf "begin_date".data
        (_set_endpoint_url "K" "q" (some "19x5") none NYT_TEXT_FIELDS
          ⟨2026, 10, 12⟩).query_url.data = false :=
  ⟨rfl, rfl⟩

/-- Witness for C6 amended: the run with the invalid bound `"19x5"` equals
the run without any start-year bound. -/
theorem claim_C6_amended_witness :
    run_query envAllOk [] "K" "q" (some "19x5") none 10 ⟨2026, 10, 12⟩
      = run_query envAllOk [] "K" "q" none none 10 ⟨2026, 10, 12⟩ :=
  (claim_C6_amended envAllOk [] "K" "q" (some "19x5") none 10 ⟨2026, 10, 12⟩).1
    (by rfl)

theorem trimRecords_nil {α : Type} (m : Int) : trimRecords ([] : List α) m = [] := by
  unfold trimRecords pySliceTo
  split
  · split <;> simp
  · rfl

theorem envPagesDown_page_urlError (p : Nat) :
    envPagesDown.net (pageUrlOf
      (_set_endpoint_url "K" "q" none none NYT_TEXT_FIELDS ⟨2026, 10, 12⟩).query_url p)
      = NetResult.urlError := by
  have heq : pageUrlOf
      (_set_endpoint_url "K" "q" none none NYT_TEXT_FIELDS ⟨2026, 10, 12⟩).query_url p
      = pageUrlStem ++ String.mk (decDigits p) := by
    simp [pageUrlOf, pageUrlStem, String.append_assoc]
  simp only [envPagesDown, heq, String.data_append, charsPrefixOf_append, if_true]

/-- C5: the fetch loop iterates over exactly the page indices
`0 .. min(ceil(max_records/10), 100) - 1` — one `pageFailed` warning per
iterated page and one `urlopen` per page plus the probe, in this
all-pages-down environment — and `max_records > 1000` emits a warning but
does not stop paging: the page count comes only from the formula, which
caps at 100. -/
theorem claim_C5_paging (max_records : Int) :
    (run_query envPagesDown [] "K" "q" none none max_records ⟨2026, 10, 12⟩).warnings
      = (if max_records > 1000 then [Warn.tooManyRecords] else [])
        ++ (List.range (numSteps max_records).toNat).map Warn.pageFailed
    ∧ (run_query envPagesDown [] "K" "q" none none max_records
        ⟨2026, 10, 12⟩).netCalls = 1 + (numSteps max_records).toNat
    ∧ (numSteps max_records).toNat
        = min ((Int.fdiv (max_records + 9) 10).toNat) 100
    ∧ (max_records > 1000 →
        Warn.tooManyRecords
            ∈ (run_query envPagesDown [] "K" "q" none none max_records
                ⟨2026, 10, 12⟩).warnings
          ∧ (numSteps max_records).toNat = 100) := by
  have hrun := run_query_mixed envPagesDown [] "K" "q" none none max_records
    ⟨2026, 10, 12⟩ "200" (fun _ => "") (fun _ => []) (fun _ => false)
    rfl
    (by intro p _ hp; simp at hp)
    (by intro p _ hp; simp at hp)
    (by intro p _ _; exact Or.inl (envPagesDown_page_urlError p))
    (by intro p _; rfl)
  refine ⟨?_, ?_, ?_, ?_⟩
  · rw [hrun]
    simp [List.filter_true]
  · rw [hrun]
  · rw [numSteps, Int.fdiv_eq_ediv _ (by norm_num)]
    omega
  · intro h1000
    constructor
    · rw [hrun]
      simp [h1000]
    · rw [numSteps, Int.fdiv_eq_ediv _ (by norm_num)]
      omega

/-- Witness for C5 at `max_records = 10005`: the warning is emitted and the
loop still visits exactly 100 pages (101 `urlopen` calls with the probe). -/
theorem claim_C5_paging_witness :
    (run_query envPagesDown [] "K" "q" none none 10005 ⟨2026, 10, 12⟩).netCalls = 101
    ∧ Warn.tooManyRecords
        ∈ (run_query envPagesDown [] "K" "q" none none 10005
            ⟨2026, 10, 12⟩).warnings := by
  have h := claim_C5_paging 10005
  refine ⟨?_, (h.2.2.2 (by norm_num)).1⟩
  rw [h.2.1]
  rfl

/-- C7: a page fetch failing with a transport error is caught: the page
yields a `pageFailed` warning, contributes no records (only the pages with
`good p` contribute, in page order), and the loop continues through all
pages; when every page fails, the record set is empty and the run returns
the empty corpus. -/
theorem claim_C7_transport_errors (env : Env) (cache0 : Cache)
    (api_key query : String) (yf yt : Option String) (max_records : Int)
    (today : PyDate) (body0 : String) (body : Nat → String) (docs : Nat → List J)
    (good : Nat → Bool)
    (hprobe : env.net (probeUrl api_key) = .ok body0)
    (hnet : ∀ p ∈ List.range (numSteps max_records).toNat, good p = true →
      env.net (pageUrlOf
        (_set_endpoint_url api_key query yf yt NYT_TEXT_FIELDS today).query_url p)
        = .ok (body p))
    (hloads : ∀ p ∈ List.range (numSteps max_records).toNat, good p = true →
      env.loads (body p) = .ok (mkResp (docs p)))
    (hbad : ∀ p ∈ List.range (numSteps max_records).toNat, good p = false →
      env.net (pageUrlOf
        (_set_endpoint_url api_key query yf yt NYT_TEXT_FIELDS today).query_url p)
        = NetResult.urlError
      ∨ env.net (pageUrlOf
        (_set_endpoint_url api_key query yf yt NYT_TEXT_FIELDS today).query_url p)
        = NetResult.httpError)
    (hcache : ∀ p ∈ List.range (numSteps max_records).toNat,
      cacheFind cache0
        (pageKeyOf
          (_set_endpoint_url api_key query yf yt NYT_TEXT_FIELDS today).query_key p)
        = none) :
    (run_query env cache0 api_key query yf yt max_records today).warnings
      = (if max_records > 1000 then [Warn.tooManyRecords] else [])
        ++ ((List.range (numSteps max_records).toNat).filter
            (fun p => !good p)).map Warn.pageFailed
    ∧ (run_query env cache0 api_key query yf yt max_records today).outcome
      = (_generate_corpus
          (trimRecords ((List.range (numSteps max_records).toNat).foldr
            (fun p acc => (if good p then docs p else []) ++ acc) []) max_records)
          NYT_TEXT_FIELDS).map
          (fun c =>
            (trimRecords ((List.range (numSteps max_records).toNat).foldr
              (fun p acc => (if good p then docs p else []) ++ acc) []) max_records,
             c))
    ∧ ((∀ p ∈ List.range (numSteps max_records).toNat, good p = false) →
        (run_query env cache0 api_key query yf yt max_records today).outcome
          = .ok ([], emptyCorpus)) := by
  have hrun := run_query_mixed env cache0 api_key query yf yt max_records today
    body0 body docs good hprobe hnet hloads hbad hcache
  refine ⟨?_, ?_, ?_⟩
  · rw [hrun]
  · rw [hrun]
  · intro hall
    rw [hrun]
    show (_generate_corpus
        (trimRecords ((List.range (numSteps max_records).toNat).foldr
          (fun p acc => (if good p then docs p else []) ++ acc) []) max_records)
        NYT_TEXT_FIELDS).map
        (fun c =>
          (trimRecords ((List.range (numSteps max_records).toNat).foldr
            (fun p acc => (if good p then docs p else []) ++ acc) []) max_records,
           c)) = .ok ([], emptyCorpus)
    rw [foldr_pages_nil good docs _ hall, trimRecords_nil]
    rfl

/-- Witness for C7: with the probe up and every page down, a request for 25
records returns the empty corpus without raising. -/
theorem claim_C7_transport_errors_witness :
    (run_query envPagesDown [] "K" "q" none none 25 ⟨2026, 10, 12⟩).outcome
      = .ok ([], emptyCorpus) := by
  have h := claim_C7_transport_errors envPagesDown [] "K" "q" none none 25
    ⟨2026, 10, 12⟩ "200" (fun _ => "") (fun _ => []) (fun _ => false)
    rfl
    (by intro p _ hp; simp at hp)
    (by intro p _ hp; simp at hp)
    (by intro p _ _; exact Or.inl (envPagesDown_page_urlError p))
    (by intro p _; rfl)
  exact h.2.2 (by intro p _; rfl)

/-- C3 counterexample: `run_query` can raise.  A page whose record lacks the
`"keywords"` key raises `KeyError` during flattening, and a network outage
during the API-key probe raises `URLError` (only `HTTPError` is caught in
`check_api_key`). -/
theorem claim_C3_counterexample :
    (run_query envNoKeywords [] "K" "q" none none 10 ⟨2026, 10, 12⟩).outcome
      = .error (.keyError "keywords")
    ∧ (run_query envNetDown [] "K" "q" none none 10 ⟨2026, 10, 12⟩).outcome
      = .error .urlError :=
  ⟨rfl, rfl⟩

/-- C3 amended: per-page transport errors (HTTPError or URLError) never
make `run_query` raise — with a reachable probe, a run whose every page
fetch hits a transport error still returns normally with an empty result
table; however `run_query` is not exception-free in general: malformed
response content (e.g. a record without `"keywords"`) and a probe-time
`URLError` do raise (see the counterexample). -/
theorem claim_C3_amended (env : Env) (cache0 : Cache) (api_key query : String)
    (yf yt : Option String) (max_records : Int) (today : PyDate) (body0 : String)
    (hprobe : env.net (probeUrl api_key) = .ok body0)
    (hbad : ∀ p ∈ List.range (numSteps max_records).toNat,
      env.net (pageUrlOf
        (_set_endpoint_url api_key query yf yt NYT_TEXT_FIELDS today).query_url p)
        = NetResult.urlError
      ∨ env.net (pageUrlOf
        (_set_endpoint_url api_key query yf yt NYT_TEXT_FIELDS today).query_url p)
        = NetResult.httpError)
    (hcache : ∀ p ∈ List.range (numSteps max_records).toNat,
      cacheFind cache0
        (pageKeyOf
          (_set_endpoint_url api_key query yf yt NYT_TEXT_FIELDS today).query_key p)
        = none) :
    (run_query env cache0 api_key query yf yt max_records today).outcome
      = .ok ([], emptyCorpus) := by
  have hrun := run_query_mixed env cache0 api_key query yf yt max_records today
    body0 (fun _ => "") (fun _ => []) (fun _ => false) hprobe
    (by intro p _ hp; simp at hp)
    (by intro p _ hp; simp at hp)
    (by intro p hp _; exact hbad p hp)
    hcache
  rw [hrun]
  show (_generate_corpus
      (trimRecords ((List.range (numSteps max_records).toNat).foldr
        (fun p acc => (if (fun _ => false) p then (fun _ => ([] : List J)) p else []) ++ acc)
        []) max_records)
      NYT_TEXT_FIELDS).map
      (fun c =>
        (trimRecords ((List.range (numSteps max_records).toNat).foldr
          (fun p acc => (if (fun _ => false) p then (fun _ => ([] : List J)) p else []) ++ acc)
          []) max_records,
         c)) = .ok ([], emptyCorpus)
  rw [foldr_pages_nil (fun _ => false) (fun _ => []) _ (by intro p _; rfl),
    trimRecords_nil]
  rfl

/-- Witness for C3 amended: probe up, all pages down, request of 10 records
— the run returns the empty corpus instead of raising. -/
theorem claim_C3_amended_witness :
    (run_query envPagesDown [] "K" "q" none none 10 ⟨2026, 10, 12⟩).outcome
      = .ok ([], emptyCorpus) :=
  claim_C3_amended envPagesDown [] "K" "q" none none 10 ⟨2026, 10, 12⟩ "200"
    rfl
    (by intro p _; exact Or.inl (envPagesDown_page_urlError p))
    (by intro p _; rfl)

/-- C4 counterexample: for a one-page query run twice with identical
parameters, the two runs perform 2 and 1 `urlopen` calls (3 in total), not
exactly one per page (1), because the API-key probe hits the network on
every run — so the second run is not served entirely from the cache. -/
theorem claim_C4_counterexample :
    (run_query envAllOk [] "K" "q" none none 10 ⟨2026, 10, 12⟩).netCalls = 2
    ∧ (run_query envAllOk
        (run_query envAllOk [] "K" "q" none none 10 ⟨2026, 10, 12⟩).cache
        "K" "q" none none 10 ⟨2026, 10, 12⟩).netCalls = 1
    ∧ (numSteps 10).toNat = 1
    ∧ (2 + 1 : Nat) ≠ 1 * 1 :=
  ⟨rfl, rfl, rfl, by decide⟩

/-- C4 amended: for a query whose page fetches all succeed, each page is
fetched from the network exactly once across the two runs: the first run
performs one `urlopen` per page (plus the API-key probe), and the second
run's page requests are all served from the on-disk cache — its only
network call is the probe — with outcome and warnings identical to the
first run's. -/
theorem claim_C4_amended (env : Env) (cache0 : Cache) (api_key query : String)
    (yf yt : Option String) (max_records : Int) (today : PyDate)
    (body0 : String) (body : Nat → String) (docs : Nat → List J)
    (hprobe : env.net (probeUrl api_key) = .ok body0)
    (hnet : ∀ p ∈ List.range (numSteps max_records).toNat,
      env.net (pageUrlOf
        (_set_endpoint_url api_key query yf yt NYT_TEXT_FIELDS today).query_url p)
        = .ok (body p))
    (hloads : ∀ p ∈ List.range (numSteps max_records).toNat,
      env.loads (body p) = .ok (mkResp (docs p)))
    (hcache : ∀ p ∈ List.range (numSteps max_records).toNat,
      cacheFind cache0
        (pageKeyOf
          (_set_endpoint_url api_key query yf yt NYT_TEXT_FIELDS today).query_key p)
        = none) :
    (run_query env cache0 api_key query yf yt max_records today).netCalls
      = 1 + (numSteps max_records).toNat
    ∧ (run_query env
        (run_query env cache0 api_key query yf yt max_records today).cache
        api_key query yf yt max_records today).netCalls = 1
    ∧ (run_query env
        (run_query env cache0 api_key query yf yt max_records today).cache
        api_key query yf yt max_records today).outcome
      = (run_query env cache0 api_key query yf yt max_records today).outcome
    ∧ (run_query env
        (run_query env cache0 api_key query yf yt max_records today).cache
        api_key query yf yt max_records today).warnings
      = (run_query env cache0 api_key query yf yt max_records today).warnings := by
  have hrun1 := run_query_mixed env cache0 api_key query yf yt max_records today
    body0 body docs (fun _ => true) hprobe
    (fun p hp _ => hnet p hp)
    (fun p hp _ => hloads p hp)
    (by intro p _ hb; simp at hb)
    hcache
  have hcache1 : (run_query env cache0 api_key query yf yt max_records today).cache
      = ((List.range (numSteps max_records).toNat).reverse.map
          (fun p =>
            (pageKeyOf
              (_set_endpoint_url api_key query yf yt NYT_TEXT_FIELDS today).query_key p,
             body p))) ++ cache0 := by
    rw [hrun1]
    rw [List.filter_true]
  have hrun2 := run_query_cached_eval env
    (run_query env cache0 api_key query yf yt max_records today).cache
    api_key query yf yt max_records today body0 body docs hprobe
    ?hc2 hloads
  case hc2 =>
    intro p hp
    rw [hcache1]
    exact cacheFind_map_inj
      (pageKeyOf
        (_set_endpoint_url api_key query yf yt NYT_TEXT_FIELDS today).query_key)
      body ((List.range (numSteps max_records).toNat).reverse) cache0
      (fun a b h => pageKeyOf_inj _ h) p (List.mem_reverse.mpr hp)
  refine ⟨?_, ?_, ?_, ?_⟩
  · rw [hrun1]
  · rw [hrun2]
  · rw [hrun2, hrun1]
    simp
  · rw [hrun2, hrun1]
    simp

/-- Witness for C4 amended at a concrete one-page query: 2 calls on the
first run, 1 on the second, identical outcome and warnings. -/
theorem claim_C4_amended_witness :
    (run_query envAllOk [] "K" "q" none none 10 ⟨2026, 10, 12⟩).netCalls
      = 1 + (numSteps 10).toNat
    ∧ (run_query envAllOk
        (run_query envAllOk [] "K" "q" none none 10 ⟨2026, 10, 12⟩).cache
        "K" "q" none none 10 ⟨2026, 10, 12⟩).netCalls = 1
    ∧ (run_query envAllOk
        (run_query envAllOk [] "K" "q" none none 10 ⟨2026, 10, 12⟩).cache
        "K" "q" none none 10 ⟨2026, 10, 12⟩).outcome
      = (run_query envAllOk [] "K" "q" none none 10 ⟨2026, 10, 12⟩).outcome
    ∧ (run_query envAllOk
        (run_query envAllOk [] "K" "q" none none 10 ⟨2026, 10, 12⟩).cache
        "K" "q" none none 10 ⟨2026, 10, 12⟩).warnings
      = (run_query envAllOk [] "K" "q" none none 10 ⟨2026, 10, 12⟩).warnings :=
  claim_C4_amended envAllOk [] "K" "q" none none 10 ⟨2026, 10, 12⟩ sampleBody
    (fun _ => sampleBody) (fun _ => [sampleDoc])
    rfl (by intro p _; rfl) (by intro p _; rfl) (by intro p _; rfl)

theorem query_key_decomp (api_key query : String) (yf yt : Option String)
    (fields : List String) (d : PyDate)
    (hyt : validYear yt = false) (hfields : fields ≠ []) :
    (_set_endpoint_url api_key query yf yt fields d).query_key
      = (if validYear yf then (yf.getD "") ++ "0101" else _date_to_str ⟨1851, 1, 1⟩)
        ++ "_" ++ _date_to_str d ++ "_"
        ++ "_".intercalate (pySplitSpace query ++ fields) := by
  have htail : pySplitSpace query ++ fields ≠ [] := by
    intro h
    exact hfields (List.append_eq_nil.mp h).2
  cases hyf : validYear yf with
  | true =>
    simp only [_set_endpoint_url, hyt, hyf, Bool.false_eq_true, if_false, if_true,
      List.cons_append, List.nil_append]
    rw [intercalate_cons_of_ne_nil _ _ _ (List.cons_ne_nil _ _),
      intercalate_cons_of_ne_nil _ _ _ htail]
    simp [String.append_assoc]
  | false =>
    simp only [_set_endpoint_url, hyt, hyf, Bool.false_eq_true, if_false,
      List.cons_append, List.nil_append]
    rw [intercalate_cons_of_ne_nil _ _ _ (List.cons_ne_nil _ _),
      intercalate_cons_of_ne_nil _ _ _ htail]
    simp [String.append_assoc]

theorem date_to_str_data_length (d : PyDate)
    (hy : d.year < 10000) (hm : d.month < 100) (hd : d.day < 100) :
    (_date_to_str d).data.length = 8 := by
  show (padDec 4 d.year ++ padDec 2 d.month ++ padDec 2 d.day).length = 8
  rw [List.length_append, List.length_append,
    padDec_length 4 d.year (by norm_num) (by norm_num at hy ⊢; omega),
    padDec_length 2 d.month (by norm_num) (by norm_num at hm ⊢; omega),
    padDec_length 2 d.day (by norm_num) (by norm_num at hd ⊢; omega)]

theorem query_key_ne_of_date_ne (api_key query : String) (yf yt : Option String)
    (fields : List String) (hyt : validYear yt = false) (hfields : fields ≠ [])
    (d1 d2 : PyDate)
    (hy1 : d1.year < 10000) (hm1 : d1.month < 100) (hd1 : d1.day < 100)
    (hy2 : d2.year < 10000) (hm2 : d2.month < 100) (hd2 : d2.day < 100)
    (hne : d1 ≠ d2) :
    (_set_endpoint_url api_key query yf yt fields d1).query_key
      ≠ (_set_endpoint_url api_key query yf yt fields d2).query_key := by
  intro h
  rw [query_key_decomp api_key query yf yt fields d1 hyt hfields,
    query_key_decomp api_key query yf yt fields d2 hyt hfields] at h
  have hdata := congrArg String.data h
  simp only [String.data_append, List.append_assoc] at hdata
  have h1 := List.append_cancel_left hdata
  have h2 := List.append_cancel_left h1
  have hlen : (_date_to_str d1).data.length = (_date_to_str d2).data.length := by
    rw [date_to_str_data_length d1 hy1 hm1 hd1,
      date_to_str_data_length d2 hy2 hm2 hd2]
  have h3 : (_date_to_str d1).data = (_date_to_str d2).data := by
    have := List.append_inj h2 hlen
    exact this.1
  exact hne (_date_to_str_inj d1 d2 hm1 hd1 hm2 hd2 (String.ext h3))

theorem query_key_data_length_eq (api_key query : String) (yf yt : Option String)
    (fields : List String) (hyt : validYear yt = false) (hfields : fields ≠ [])
    (d1 d2 : PyDate)
    (hy1 : d1.year < 10000) (hm1 : d1.month < 100) (hd1 : d1.day < 100)
    (hy2 : d2.year < 10000) (hm2 : d2.month < 100) (hd2 : d2.day < 100) :
    (_set_endpoint_url api_key query yf yt fields d1).query_key.data.length
      = (_set_endpoint_url api_key query yf yt fields d2).query_key.data.length := by
  rw [query_key_decomp api_key query yf yt fields d1 hyt hfields,
    query_key_decomp api_key query yf yt fields d2 hyt hfields]
  simp only [String.data_append, List.length_append]
  rw [date_to_str_data_length d1 hy1 hm1 hd1,
    date_to_str_data_length d2 hy2 hm2 hd2]

/-- C10: with no valid year-to bound, the cache key embeds the calling
day's date as its end-date component; two runs of the same query on
different days therefore use different query keys and different per-page
cache keys, so the later run cannot be served from a cache whose entries
were all written by the earlier run. -/
theorem claim_C10_date_cache_key (api_key query : String) (yf yt : Option String)
    (fields : List String) (hyt : validYear yt = false) (hfields : fields ≠ [])
    (d1 d2 : PyDate)
    (hy1 : d1.year < 10000) (hm1 : d1.month < 100) (hd1 : d1.day < 100)
    (hy2 : d2.year < 10000) (hm2 : d2.month < 100) (hd2 : d2.day < 100)
    (hne : d1 ≠ d2) (page : Nat) :
    (∀ d : PyDate, (_set_endpoint_url api_key query yf yt fields d).query_key
      = (if validYear yf then (yf.getD "") ++ "0101" else _date_to_str ⟨1851, 1, 1⟩)
        ++ "_" ++ _date_to_str d ++ "_"
        ++ "_".intercalate (pySplitSpace query ++ fields))
    ∧ (_set_endpoint_url api_key query yf yt fields d1).query_key
      ≠ (_set_endpoint_url api_key query yf yt fields d2).query_key
    ∧ (∀ c : Cache,
        (∀ kv ∈ c, ∃ p', kv.1
          = pageKeyOf (_set_endpoint_url api_key query yf yt fields d1).query_key p') →
        cacheFind c
          (pageKeyOf (_set_endpoint_url api_key query yf yt fields d2).query_key page)
          = none) := by
  have hkne := query_key_ne_of_date_ne api_key query yf yt fields hyt hfields
    d1 d2 hy1 hm1 hd1 hy2 hm2 hd2 hne
  refine ⟨fun d => query_key_decomp api_key query yf yt fields d hyt hfields,
    hkne, ?_⟩
  intro c hc
  have hfindnone : c.find? (fun kv =>
      kv.1 == pageKeyOf (_set_endpoint_url api_key query yf yt fields d2).query_key page)
      = none := by
    rw [List.find?_eq_none]
    intro kv hkv
    obtain ⟨p', hp'⟩ := hc kv hkv
    rw [hp']
    simp only [beq_iff_eq]
    intro heq
    have hdata := congrArg String.data heq
    simp only [pageKeyOf, String.data_append] at hdata
    have hlen : ((_set_endpoint_url api_key query yf yt fields d1).query_key.data
        ++ "_".data).length
        = ((_set_endpoint_url api_key query yf yt fields d2).query_key.data
        ++ "_".data).length := by
      simp only [List.length_append]
      rw [query_key_data_length_eq api_key query yf yt fields hyt hfields
        d1 d2 hy1 hm1 hd1 hy2 hm2 hd2]
    have h4 := (List.append_inj hdata hlen).1
    have h5 := (List.append_inj h4 (by
      rw [query_key_data_length_eq api_key query yf yt fields hyt hfields
        d1 d2 hy1 hm1 hd1 hy2 hm2 hd2])).1
    exact hkne (String.ext h5)
  simp [cacheFind, hfindnone]

/-- Witness for C10: the query key of 2026-10-12 differs from that of
2026-10-13 (same query, no year bounds), and a page-0 key of the later day
misses in a cache holding only the earlier day's page entries. -/
theorem claim_C10_date_cache_key_witness :
    (_set_endpoint_url "K" "q" none none NYT_TEXT_FIELDS ⟨2026, 10, 12⟩).query_key
      ≠ (_set_endpoint_url "K" "q" none none NYT_TEXT_FIELDS ⟨2026, 10, 13⟩).query_key
    ∧ cacheFind
        [(pageKeyOf
            (_set_endpoint_url "K" "q" none none NYT_TEXT_FIELDS
              ⟨2026, 10, 12⟩).query_key 0, sampleBody)]
        (pageKeyOf
          (_set_endpoint_url "K" "q" none none NYT_TEXT_FIELDS
            ⟨2026, 10, 13⟩).query_key 0)
      = none := by
  have h := claim_C10_date_cache_key "K" "q" none none NYT_TEXT_FIELDS rfl
    (by decide) ⟨2026, 10, 12⟩ ⟨2026, 10, 13⟩
    (by norm_num) (by norm_num) (by norm_num)
    (by norm_num) (by norm_num) (by norm_num)
    (by decide) 0
  exact ⟨h.2.1, h.2.2 _ (by intro kv hkv; simp at hkv; exact ⟨0, by rw [hkv]⟩)⟩
